import Mathlib

/-! Verification development for the e-commerce insights dashboard
(src/streamlit_app.py). The pipeline is embedded shallowly: dataframes are
lists of records, timestamps are natural numbers counting minutes (so that
the pandas dt.days truncation of fractional days is the division by 1440),
currency amounts are rationals, and a pandas NaN or a raised exception is an
explicit Option or Except value. Each definition is translated from the
source; the line numbers in the doc comments refer to src/streamlit_app.py. -/

/-- Order line item as loaded from the orders table: customer id, coarse
product category, purchase timestamp (timezone naive, in whole minutes) and
payment value. -/
structure Order where
  customer_unique_id : String
  product_category : String
  order_purchase_timestamp : Nat
  payment_value : ℚ
deriving DecidableEq

/-- Order row after the enrichment of load_data: the source adds a recency
column in days; a missing value (pandas NaN) is modelled as none. -/
structure EOrder extends Order where
  recency : Option Nat
deriving DecidableEq

/-- Customer segment row from customer-segmentation.csv. -/
structure Segment where
  customer_unique_id : String
  segment : String
  frequency : Nat
  total_spending : ℚ
deriving DecidableEq

/-- Minutes in a day: timestamps are minutes, so dt.days of a timedelta is
truncating division by 1440. -/
def minutesPerDay : Nat := 1440

/-- Decidability instance for the String order whose evaluation the kernel can
reduce (the default instance is iterator based and does not reduce); with a
high priority it is also the instance picked inside the sorting functions, so
concrete sorts evaluate by decide. -/
instance (priority := 2000) decStrLE : DecidableRel (fun a b : String => a ≤ b) :=
  fun _ _ => decidable_of_iff _ String.le_iff_toList_le.symm

/-- Ascending sort of a list of strings; pandas sorts group keys, unstack
columns and mode values this way. -/
def sortStr (l : List String) : List String :=
  List.insertionSort (· ≤ ·) l

/-- Ascending sort of a list of naturals, for the date axis of the heatmap. -/
def sortNat (l : List Nat) : List Nat :=
  List.insertionSort (· ≤ ·) l

/-- Global maximum purchase timestamp over the entire table (line 11). The
claims never evaluate it on an empty table. -/
def max_purchase_date (df : List Order) : Nat :=
  (df.map (·.order_purchase_timestamp)).foldr max 0

/-- Distinct customer ids in ascending order: the index of the dataframe
produced by the groupby on customer_unique_id of line 12, since pandas sorts
group keys. -/
def customersSorted (df : List Order) : List String :=
  sortStr (df.map (·.customer_unique_id)).dedup

/-- Latest purchase timestamp among the rows of one customer (line 12). -/
def last_purchase_date (df : List Order) (c : String) : Nat :=
  ((df.filter (fun r => r.customer_unique_id == c)).map
    (·.order_purchase_timestamp)).foldr max 0

/-- The series built on line 13, one entry per distinct customer after
reset_index: positionally indexed 0, 1, ... in sorted customer order, holding
the whole days between the global maximum and that customer latest purchase. -/
def recency_series (df : List Order) : List Nat :=
  (customersSorted df).map
    (fun c => (max_purchase_date df - last_purchase_date df c) / minutesPerDay)

/-- Enrichment step of load_data (lines 11 to 13). The assignment of the
recency column aligns the per customer series with the order table on the
positional integer index, not on the customer id: row i of the table receives
entry i of the series, and a row whose index reaches past the series length
receives NaN (none). -/
def load_data (df : List Order) : List EOrder :=
  df.enum.map (fun p => { toOrder := p.2, recency := (recency_series df).get? p.1 })

/-- Date range and category filter applied to the orders table
(lines 66 to 68): both date bounds inclusive, then membership of
product_category in the selected category list. -/
def filtered_df (df : List EOrder) (d0 d1 : Nat) (product_category : List String) :
    List EOrder :=
  (df.filter (fun r =>
      decide (d0 ≤ r.order_purchase_timestamp) &&
      decide (r.order_purchase_timestamp ≤ d1))).filter
    (fun r => product_category.contains r.product_category)

/-- Segment filter applied to the customer table (line 69). -/
def filtered_customer_df (customer_df : List Segment) (selected_segment : List String) :
    List Segment :=
  customer_df.filter (fun r => selected_segment.contains r.segment)

/-- nunique of customer_unique_id on the filtered view (line 72). -/
def total_customers (view : List EOrder) : Nat :=
  (view.map (·.customer_unique_id)).dedup.length

/-- Sum of payment_value over the view (line 73). -/
def total_revenue (view : List EOrder) : ℚ :=
  (view.map (·.payment_value)).sum

/-- Mean of payment_value (line 74): the pandas mean of an empty series is NaN,
modelled as none; otherwise it is the sum divided by the row count. -/
def avg_order_value (view : List EOrder) : Option ℚ :=
  if view.length = 0 then none
  else some (total_revenue view / (view.length : ℚ))

/-- Row predicate recency greater than churn_threshold of line 75; a NaN
recency compares as false in pandas. -/
def churn_row (r : EOrder) (churn_threshold : Nat) : Bool :=
  match r.recency with
  | some d => decide (churn_threshold < d)
  | none => false

/-- Churn rate of line 75: the count of rows whose recency exceeds the
threshold, divided by total_customers, times 100. The division is plain Python
division, which raises ZeroDivisionError when total_customers is 0; the raise
is modelled as none. -/
def churn_rate (view : List EOrder) (churn_threshold : Nat) : Option ℚ :=
  if total_customers view = 0 then none
  else some
    ((((view.filter (fun r => churn_row r churn_threshold)).length : ℚ) /
      (total_customers view : ℚ)) * 100)

/-- Distinct product categories of the view in ascending order. -/
def catsSorted (view : List EOrder) : List String :=
  sortStr (view.map (·.product_category)).dedup

/-- Number of rows of the view carrying the given product category. -/
def count_category (view : List EOrder) (c : String) : Nat :=
  (view.map (·.product_category)).count c

/-- Largest per category row count of the view. -/
def max_category_count (view : List EOrder) : Nat :=
  ((catsSorted view).map (count_category view)).foldr max 0

/-- pandas Series.mode of the product_category column (line 113): the
ascending sorted list of the values that attain the maximal count. -/
def mode_product_category (view : List EOrder) : List String :=
  (catsSorted view).filter (fun c => count_category view c == max_category_count view)

/-- The expression mode()[0] of line 113: positional element 0 of the mode
series; on an empty view the mode series is empty and pandas raises KeyError,
modelled as the error constructor. -/
def top_category (view : List EOrder) : Except String String :=
  match mode_product_category view with
  | [] => Except.error "KeyError"
  | c :: _ => Except.ok c

/-- Revenue of one category: sum of payment_value over its rows (line 123). -/
def category_revenue (view : List EOrder) (c : String) : ℚ :=
  ((view.filter (fun r => r.product_category == c)).map (·.payment_value)).sum

/-- treemap_data of lines 123 to 124: groupby on product_category with the sum
of payment_value, hence one pair per distinct category, in ascending key
order. -/
def treemap_data (view : List EOrder) : List (String × ℚ) :=
  (catsSorted view).map (fun c => (c, category_revenue view c))

/-- Calendar date of an order row: dt.date truncates the time of day. -/
def order_date (r : EOrder) : Nat :=
  r.order_purchase_timestamp / minutesPerDay

/-- Distinct order dates of the view in ascending order. -/
def datesSorted (view : List EOrder) : List Nat :=
  sortNat (view.map order_date).dedup

/-- Count of rows of the view with the given date and category. -/
def pair_count (view : List EOrder) (d : Nat) (c : String) : Nat :=
  (view.filter (fun r => order_date r == d && r.product_category == c)).length

/-- heatmap_data of line 117: groupby on date and product_category with size,
then unstack; the rows are the sorted distinct dates, the columns the sorted
distinct categories, and a date and category pair absent from the view
unstacks to NaN (none), not to 0. -/
def heatmap_data (view : List EOrder) : List (List (Option Nat)) :=
  (datesSorted view).map (fun d =>
    (catsSorted view).map (fun c =>
      if pair_count view d c = 0 then none else some (pair_count view d c)))

/-- Numeric content of a heatmap cell, reading an absent cell as 0. -/
def cellVal : Option Nat → Nat
  | none => 0
  | some n => n

/-- Count of rows of the view on one date. -/
def date_count (view : List EOrder) (d : Nat) : Nat :=
  (view.filter (fun r => order_date r == d)).length

/-- Count of rows of the view in one category. -/
def cat_count (view : List EOrder) (c : String) : Nat :=
  (view.filter (fun r => r.product_category == c)).length

/-- Per column sums of a grid of the given width, reading absent cells as 0. -/
def colSums (grid : List (List (Option Nat))) (m : Nat) : List Nat :=
  grid.foldr (fun row acc => List.zipWith (· + ·) (row.map cellVal) acc)
    (List.replicate m 0)

/-- The two order scenario of the spec: one customer A with purchases on
2024-01-01 and 2024-02-01, that is 31 days (44640 minutes) apart. -/
def specOrders : List Order :=
  [{ customer_unique_id := "A", product_category := "electronics",
     order_purchase_timestamp := 0, payment_value := 100 },
   { customer_unique_id := "A", product_category := "electronics",
     order_purchase_timestamp := 44640, payment_value := 50 }]

/-- Orders table with three customers a, b, c whose recencies in sorted
customer order are 299, 298 and 0 days; rows 0 and 1 both belong to a. -/
def ordersABC : List Order :=
  [{ customer_unique_id := "a", product_category := "x",
     order_purchase_timestamp := 0, payment_value := 1 },
   { customer_unique_id := "a", product_category := "x",
     order_purchase_timestamp := 1440, payment_value := 1 },
   { customer_unique_id := "b", product_category := "y",
     order_purchase_timestamp := 2880, payment_value := 1 },
   { customer_unique_id := "c", product_category := "y",
     order_purchase_timestamp := 432000, payment_value := 1 }]

/-- Two row view with category a worth 300 and category b worth 700. -/
def viewAB : List EOrder :=
  [{ customer_unique_id := "u", product_category := "a",
     order_purchase_timestamp := 0, payment_value := 300, recency := some 0 },
   { customer_unique_id := "v", product_category := "b",
     order_purchase_timestamp := 0, payment_value := 700, recency := some 0 }]

/-- Two row view covering dates 0 and 1 and categories a and b with only the
diagonal pairs present. -/
def viewDiag : List EOrder :=
  [{ customer_unique_id := "u", product_category := "a",
     order_purchase_timestamp := 0, payment_value := 1, recency := some 0 },
   { customer_unique_id := "v", product_category := "b",
     order_purchase_timestamp := 1440, payment_value := 1, recency := some 0 }]

/-- Two row view in which categories a and b tie with one row each. -/
def viewTie : List EOrder :=
  [{ customer_unique_id := "u", product_category := "b",
     order_purchase_timestamp := 0, payment_value := 1, recency := some 0 },
   { customer_unique_id := "v", product_category := "a",
     order_purchase_timestamp := 0, payment_value := 1, recency := some 0 }]

/-- Filtering twice with the same predicate equals filtering once. -/
theorem filter_idem {α : Type} (p : α → Bool) (l : List α) :
    (l.filter p).filter p = l.filter p := by
  simp [List.filter_filter]

/-- Two list filters commute. -/
theorem filter_comm {α : Type} (l : List α) (p q : α → Bool) :
    (l.filter p).filter q = (l.filter q).filter p := by
  simp [List.filter_filter, Bool.and_comm]

/-- Repeating a two stage filter leaves its result unchanged. -/
theorem filter_filter_idem {α : Type} (p q : α → Bool) (l : List α) :
    (((l.filter p).filter q).filter p).filter q = (l.filter p).filter q := by
  rw [filter_comm (l.filter p) q p, filter_idem p l, filter_idem q (l.filter p)]

/-- An empty category selection empties the orders view. -/
theorem filtered_df_empty_cats (df : List EOrder) (d0 d1 : Nat) :
    filtered_df df d0 d1 [] = [] := by
  simp [filtered_df]

/-- The sorted distinct categories are sorted. -/
theorem catsSorted_sorted (view : List EOrder) : (catsSorted view).Sorted (· ≤ ·) :=
  List.sorted_insertionSort _ _

/-- The sorted distinct categories are a permutation of the distinct
categories. -/
theorem catsSorted_perm (view : List EOrder) :
    List.Perm (catsSorted view) (view.map (fun r => r.product_category)).dedup :=
  List.perm_insertionSort _ _

/-- The sorted distinct categories hold no duplicate. -/
theorem catsSorted_nodup (view : List EOrder) : (catsSorted view).Nodup :=
  (catsSorted_perm view).symm.nodup (List.nodup_dedup _)

/-- Membership in the sorted distinct categories is membership in the category
column. -/
theorem mem_catsSorted {view : List EOrder} {c : String} :
    c ∈ catsSorted view ↔ c ∈ view.map (fun r => r.product_category) := by
  rw [(catsSorted_perm view).mem_iff, List.mem_dedup]

/-- The sorted distinct dates are sorted. -/
theorem datesSorted_sorted (view : List EOrder) : (datesSorted view).Sorted (· ≤ ·) :=
  List.sorted_insertionSort _ _

/-- The sorted distinct dates are a permutation of the distinct dates. -/
theorem datesSorted_perm (view : List EOrder) :
    List.Perm (datesSorted view) (view.map order_date).dedup :=
  List.perm_insertionSort _ _

/-- The sorted distinct dates hold no duplicate. -/
theorem datesSorted_nodup (view : List EOrder) : (datesSorted view).Nodup :=
  (datesSorted_perm view).symm.nodup (List.nodup_dedup _)

/-- Membership in the sorted distinct dates is membership in the date column. -/
theorem mem_datesSorted {view : List EOrder} {d : Nat} :
    d ∈ datesSorted view ↔ d ∈ view.map order_date := by
  rw [(datesSorted_perm view).mem_iff, List.mem_dedup]

/-- A member of a list of naturals is at most the fold of max over the list. -/
theorem le_foldr_max {l : List Nat} {a : Nat} (h : a ∈ l) : a ≤ l.foldr max 0 := by
  induction l with
  | nil => cases h
  | cons b t ih =>
    rcases List.mem_cons.mp h with rfl | ht
    · exact Nat.le_max_left _ _
    · exact le_trans (ih ht) (Nat.le_max_right _ _)

/-- The fold of max over a list of naturals is 0 or a member of the list. -/
theorem foldr_max_mem (l : List Nat) : l.foldr max 0 = 0 ∨ l.foldr max 0 ∈ l := by
  induction l with
  | nil => exact Or.inl rfl
  | cons b t ih =>
    rcases Nat.le_total b (t.foldr max 0) with h | h
    · rw [List.foldr_cons, Nat.max_eq_right h]
      rcases ih with h0 | hm
      · exact Or.inl h0
      · exact Or.inr (List.mem_cons_of_mem _ hm)
    · rw [List.foldr_cons, Nat.max_eq_left h]
      exact Or.inr (List.mem_cons_self _ _)

/-- A category count is positive exactly when the category occurs in the view. -/
theorem count_category_pos {view : List EOrder} {c : String} :
    0 < count_category view c ↔ c ∈ view.map (fun r => r.product_category) :=
  List.count_pos_iff

/-- Every category count is bounded by the maximal category count. -/
theorem count_le_max (view : List EOrder) (x : String) :
    count_category view x ≤ max_category_count view := by
  by_cases hx : x ∈ view.map (fun r => r.product_category)
  · exact le_foldr_max (List.mem_map_of_mem _ (mem_catsSorted.mpr hx))
  · have h0 : count_category view x = 0 := List.count_eq_zero.mpr hx
    rw [h0]
    exact Nat.zero_le _

/-- On a non empty view the maximal category count is attained by some distinct
category. -/
theorem max_attained (view : List EOrder) (h : view ≠ []) :
    ∃ c ∈ catsSorted view, count_category view c = max_category_count view := by
  rcases foldr_max_mem ((catsSorted view).map (count_category view)) with h0 | hm
  · exfalso
    obtain ⟨r, hr⟩ := List.exists_mem_of_ne_nil view h
    have h3 : 0 < count_category view r.product_category :=
      count_category_pos.mpr (List.mem_map_of_mem _ hr)
    have h2 : count_category view r.product_category ≤ max_category_count view :=
      count_le_max view _
    have h4 : max_category_count view = 0 := h0
    omega
  · obtain ⟨c, hc, hceq⟩ := List.mem_map.mp hm
    exact ⟨c, hc, hceq⟩

/-- Sum of a constant zero map. -/
theorem sum_map_zero {β : Type} (L : List β) : (L.map (fun _ => (0 : Nat))).sum = 0 := by
  induction L with
  | nil => rfl
  | cons b t ih => simp [ih]

/-- Sum of a pointwise addition of two maps. -/
theorem sum_map_add {β : Type} (f g : β → Nat) (L : List β) :
    (L.map (fun c => f c + g c)).sum = (L.map f).sum + (L.map g).sum := by
  induction L with
  | nil => rfl
  | cons b t ih =>
    simp [ih]
    omega

/-- The indicator of an element absent from a list sums to 0 over the list. -/
theorem sum_indicator_zero {β : Type} [DecidableEq β] (L : List β) (a : β) (ha : a ∉ L) :
    (L.map (fun c => if a = c then (1 : Nat) else 0)).sum = 0 := by
  induction L with
  | nil => rfl
  | cons b t ih =>
    rw [List.mem_cons, not_or] at ha
    simp [ha.1, ih ha.2]

/-- The indicator of a member of a duplicate free list sums to 1 over the
list. -/
theorem sum_indicator_one {β : Type} [DecidableEq β] (L : List β) (hN : L.Nodup) (a : β)
    (ha : a ∈ L) : (L.map (fun c => if a = c then (1 : Nat) else 0)).sum = 1 := by
  induction L with
  | nil => cases ha
  | cons b t ih =>
    rw [List.nodup_cons] at hN
    rcases List.mem_cons.mp ha with rfl | hat
    · simp [sum_indicator_zero t a hN.1]
    · have hab : a ≠ b := by
        rintro rfl
        exact hN.1 hat
      simp [hab, ih hN.2 hat]

/-- Unfolding of the pair count over a cons cell. -/
theorem pair_count_cons (r : EOrder) (v : List EOrder) (d : Nat) (c : String) :
    pair_count (r :: v) d c
      = pair_count v d c
        + (if order_date r = d ∧ r.product_category = c then 1 else 0) := by
  by_cases h : (order_date r == d && (r.product_category == c)) = true
  · have hp : order_date r = d ∧ r.product_category = c := by
      simpa [Bool.and_eq_true, beq_iff_eq] using h
    simp [pair_count, List.filter_cons, h, hp]
  · have hp : ¬ (order_date r = d ∧ r.product_category = c) := by
      simpa [Bool.and_eq_true, beq_iff_eq] using h
    simp [pair_count, List.filter_cons, h, hp]

/-- Unfolding of the date count over a cons cell. -/
theorem date_count_cons (r : EOrder) (v : List EOrder) (d : Nat) :
    date_count (r :: v) d = date_count v d + (if order_date r = d then 1 else 0) := by
  by_cases hd : order_date r = d <;> simp [date_count, List.filter_cons, hd]

/-- Unfolding of the category count over a cons cell. -/
theorem cat_count_cons (r : EOrder) (v : List EOrder) (c : String) :
    cat_count (r :: v) c = cat_count v c + (if r.product_category = c then 1 else 0) := by
  by_cases hc : r.product_category = c <;> simp [cat_count, List.filter_cons, hc]

/-- Summing the pair counts of one date over a duplicate free list covering all
categories of the view gives the date count. -/
theorem sum_pair_count_rows (L : List String) (hN : L.Nodup) (d : Nat) :
    ∀ view : List EOrder, (∀ r ∈ view, r.product_category ∈ L) →
      (L.map (fun c => pair_count view d c)).sum = date_count view d := by
  intro view
  induction view with
  | nil =>
    intro _
    exact sum_map_zero L
  | cons r v ih =>
    intro hC
    rw [List.map_congr_left (fun c _ => pair_count_cons r v d c), sum_map_add,
      ih (fun x hx => hC x (List.mem_cons_of_mem _ hx)), date_count_cons]
    by_cases hd : order_date r = d
    · have hind : (L.map fun c =>
          if order_date r = d ∧ r.product_category = c then (1 : Nat) else 0)
          = L.map (fun c => if r.product_category = c then (1 : Nat) else 0) :=
        List.map_congr_left (fun c _ => by simp [hd])
      rw [hind, sum_indicator_one L hN _ (hC r (List.mem_cons_self r v)), if_pos hd]
    · have hind : (L.map fun c =>
          if order_date r = d ∧ r.product_category = c then (1 : Nat) else 0)
          = L.map (fun _ => (0 : Nat)) :=
        List.map_congr_left (fun c _ => by simp [hd])
      rw [hind, sum_map_zero, if_neg hd]

/-- Summing the pair counts of one category over a duplicate free list covering
all dates of the view gives the category count. -/
theorem sum_pair_count_cols (L : List Nat) (hN : L.Nodup) (c : String) :
    ∀ view : List EOrder, (∀ r ∈ view, order_date r ∈ L) →
      (L.map (fun d => pair_count view d c)).sum = cat_count view c := by
  intro view
  induction view with
  | nil =>
    intro _
    exact sum_map_zero L
  | cons r v ih =>
    intro hC
    rw [List.map_congr_left (fun d _ => pair_count_cons r v d c), sum_map_add,
      ih (fun x hx => hC x (List.mem_cons_of_mem _ hx)), cat_count_cons]
    by_cases hc : r.product_category = c
    · have hind : (L.map fun d =>
          if order_date r = d ∧ r.product_category = c then (1 : Nat) else 0)
          = L.map (fun d => if order_date r = d then (1 : Nat) else 0) :=
        List.map_congr_left (fun d _ => by simp [hc])
      rw [hind, sum_indicator_one L hN _ (hC r (List.mem_cons_self r v)), if_pos hc]
    · have hind : (L.map fun d =>
          if order_date r = d ∧ r.product_category = c then (1 : Nat) else 0)
          = L.map (fun _ => (0 : Nat)) :=
        List.map_congr_left (fun d _ => by simp [hc])
      rw [hind, sum_map_zero, if_neg hc]

/-- Reading a heatmap cell as a number gives the pair count. -/
theorem cellVal_cell (view : List EOrder) (d : Nat) (c : String) :
    cellVal (if pair_count view d c = 0 then none else some (pair_count view d c))
      = pair_count view d c := by
  by_cases h : pair_count view d c = 0 <;> simp [h, cellVal]

/-- Zipping two maps over one list with addition is the map of the pointwise
sum. -/
theorem zipWith_add_map {β : Type} (f g : β → Nat) (l : List β) :
    List.zipWith (· + ·) (l.map f) (l.map g) = l.map (fun a => f a + g a) := by
  induction l with
  | nil => rfl
  | cons a t ih => simp [ih]

/-- Unfolding of the column sums over a cons cell. -/
theorem colSums_cons (row : List (Option Nat)) (grid : List (List (Option Nat))) (m : Nat) :
    colSums (row :: grid) m = List.zipWith (· + ·) (row.map cellVal) (colSums grid m) :=
  rfl

/-- Column sums of a grid whose rows are maps over a fixed column list. -/
theorem colSums_maps {α β : Type} (cs : List β) (f : α → β → Option Nat) :
    ∀ ds : List α,
      colSums (ds.map (fun d => cs.map (fun c => f d c))) cs.length
        = cs.map (fun c => (ds.map (fun d => cellVal (f d c))).sum) := by
  intro ds
  induction ds with
  | nil =>
    show List.replicate cs.length 0 = _
    rw [show (cs.map fun c => (([] : List α).map fun d => cellVal (f d c)).sum)
        = cs.map (fun _ => (0 : Nat)) from List.map_congr_left (fun c _ => rfl)]
    exact (List.map_const' cs 0).symm
  | cons d ds ih =>
    rw [List.map_cons, colSums_cons, ih, List.map_map, zipWith_add_map]
    exact List.map_congr_left (fun c _ => by simp [Function.comp])

/-- Row sums of the heatmap give the per date order counts. -/
theorem heat_row_sums (view : List EOrder) :
    (heatmap_data view).map (fun row => (row.map cellVal).sum)
      = (datesSorted view).map (date_count view) := by
  rw [heatmap_data, List.map_map]
  refine List.map_congr_left (fun d _ => ?_)
  show (((catsSorted view).map _).map cellVal).sum = _
  rw [List.map_map,
    List.map_congr_left (fun c (_ : c ∈ catsSorted view) =>
      (by simp [Function.comp, cellVal_cell] :
        (cellVal ∘ fun c =>
          if pair_count view d c = 0 then none else some (pair_count view d c)) c
          = pair_count view d c))]
  exact sum_pair_count_rows (catsSorted view) (catsSorted_nodup view) d view
    (fun r hr => mem_catsSorted.mpr (List.mem_map_of_mem _ hr))

/-- Column sums of the heatmap give the per category order counts. -/
theorem heat_col_sums (view : List EOrder) :
    colSums (heatmap_data view) (catsSorted view).length
      = (catsSorted view).map (cat_count view) := by
  rw [heatmap_data, colSums_maps]
  refine List.map_congr_left (fun c _ => ?_)
  rw [List.map_congr_left (fun d (_ : d ∈ datesSorted view) => cellVal_cell view d c)]
  exact sum_pair_count_cols (datesSorted view) (datesSorted_nodup view) c view
    (fun r hr => mem_datesSorted.mpr (List.mem_map_of_mem _ hr))

/-- Every heatmap row has one entry per distinct category. -/
theorem heat_dims (view : List EOrder) :
    (heatmap_data view).map List.length
      = List.replicate (datesSorted view).length (catsSorted view).length := by
  rw [heatmap_data, List.map_map]
  rw [show (List.length ∘ fun d => (catsSorted view).map fun c =>
      if pair_count view d c = 0 then none else some (pair_count view d c))
      = fun _ => (catsSorted view).length from funext (fun d => by simp [Function.comp])]
  exact List.map_const' (datesSorted view) (catsSorted view).length

/-- Claim C1: the spec requires every enriched row to carry the whole day
recency of its own customer, never null; the source instead assigns the per
customer series by positional index. On the spec scenario (one customer,
purchases 31 days apart) row 0 receives 0 and row 1 receives NaN; on ordersABC
rows receive the recencies of the positionally matching sorted customers, the
last row receiving NaN, instead of the recency of their own customer. -/
theorem recency_misaligned_on_spec_scenario :
    (load_data specOrders).map (fun r => r.recency) = [some 0, none] ∧
    (load_data ordersABC).map (fun r => r.recency)
      = [some 299, some 298, some 0, none] :=
  ⟨by decide, by decide⟩

/-- Claim C2: an empty category selection always yields an empty orders view,
on which total_customers is 0 and the unguarded division of line 75 raises
ZeroDivisionError (none), instead of producing the churn rate 0 the claim
requires. -/
theorem churn_rate_division_by_zero (df : List EOrder) (d0 d1 churn_threshold : Nat) :
    churn_rate (filtered_df df d0 d1 []) churn_threshold = none := by
  rw [filtered_df_empty_cats]
  rfl

/-- Claim C3: on the empty orders view, reachable through an empty category
selection, the source computes the mean of an empty series, which is NaN
(none), not the 0 the claim requires. -/
theorem avg_order_value_empty_is_nan (df : List EOrder) (d0 d1 : Nat) :
    avg_order_value (filtered_df df d0 d1 []) = none := by
  rw [filtered_df_empty_cats]
  rfl

/-- Claim C4: on the empty orders view, reachable through an empty category
selection, the mode series is empty and the positional access of line 113
raises KeyError instead of producing None without failing. -/
theorem top_category_empty_raises (df : List EOrder) (d0 d1 : Nat) :
    top_category (filtered_df df d0 d1 []) = Except.error "KeyError" := by
  rw [filtered_df_empty_cats]
  rfl

/-- Claim C5 counterexample: on viewAB (revenue 300 for category a, 700 for
category b) the source emits the pairs in ascending category order, so the
revenue column reads [300, 700]: the first pair carries 300, not 700, and the
series is not sorted descending by revenue. -/
theorem treemap_not_descending_on_viewAB :
    (treemap_data viewAB).map Prod.snd = [300, 700] ∧
    ¬ (treemap_data viewAB).Sorted (fun p q => q.2 ≤ p.2) := by
  have ha : category_revenue viewAB "a" = 300 := by
    rw [category_revenue,
      show viewAB.filter (fun r => r.product_category == "a")
        = [{ customer_unique_id := "u", product_category := "a",
             order_purchase_timestamp := 0, payment_value := 300, recency := some 0 }]
        from by decide]
    simp
  have hb : category_revenue viewAB "b" = 700 := by
    rw [category_revenue,
      show viewAB.filter (fun r => r.product_category == "b")
        = [{ customer_unique_id := "v", product_category := "b",
             order_purchase_timestamp := 0, payment_value := 700, recency := some 0 }]
        from by decide]
    simp
  have ht : treemap_data viewAB = [("a", 300), ("b", 700)] := by
    rw [treemap_data, show catsSorted viewAB = ["a", "b"] from by decide,
      List.map_cons, List.map_cons, List.map_nil, ha, hb]
  constructor
  · rw [ht]
    rfl
  · rw [ht]
    intro hs
    have h7 : (700 : ℚ) ≤ 300 :=
      List.rel_of_sorted_cons hs ("b", 700) (List.mem_cons_self _ _)
    norm_num at h7

/-- Claim C5 amended: treemap_data holds one pair per distinct category of the
view, carrying that category revenue, sorted ascending by category name (the
pandas groupby key order), not descending by revenue. -/
theorem treemap_sorted_ascending_by_category (view : List EOrder) :
    ((treemap_data view).map Prod.fst).Sorted (· ≤ ·) ∧
    ((treemap_data view).map Prod.fst).Nodup ∧
    List.Perm ((treemap_data view).map Prod.fst)
      (view.map (fun r => r.product_category)).dedup ∧
    (treemap_data view).map Prod.snd
      = ((treemap_data view).map Prod.fst).map (category_revenue view) := by
  have hfst : (treemap_data view).map Prod.fst = catsSorted view := by
    rw [treemap_data, List.map_map,
      show (Prod.fst ∘ fun c => (c, category_revenue view c)) = id from
        funext (fun c => rfl)]
    exact List.map_id _
  refine ⟨?_, ?_, ?_, ?_⟩
  · rw [hfst]
    exact catsSorted_sorted view
  · rw [hfst]
    exact catsSorted_nodup view
  · rw [hfst]
    exact catsSorted_perm view
  · rw [hfst, treemap_data, List.map_map]
    exact List.map_congr_left (fun c _ => rfl)

/-- Claim C6 counterexample: viewDiag spans dates 0 and 1 and categories a and
b with only the diagonal pairs present; the two absent cells unstack to NaN
(none), which differs from the grid with the 0 fill the claim requires. -/
theorem heatmap_missing_cells_are_nan :
    heatmap_data viewDiag = [[some 1, none], [none, some 1]] ∧
    [[some 1, none], [none, some 1]] ≠ [[some 1, some 0], [some 0, some 1]] :=
  ⟨by decide, by decide⟩

/-- Claim C6 amended: the heatmap grid has one row per distinct date and one
entry per distinct category in every row, both axes sorted ascending and
duplicate free; an absent pair is NaN (none), read as 0 in sums; the row sums
equal the per date order counts and the column sums the per category order
counts. -/
theorem heatmap_grid_shape_and_sums (view : List EOrder) :
    (heatmap_data view).length = (datesSorted view).length ∧
    (heatmap_data view).map List.length
      = List.replicate (datesSorted view).length (catsSorted view).length ∧
    (datesSorted view).Sorted (· ≤ ·) ∧
    List.Perm (datesSorted view) (view.map order_date).dedup ∧
    (catsSorted view).Sorted (· ≤ ·) ∧
    List.Perm (catsSorted view) (view.map (fun r => r.product_category)).dedup ∧
    (heatmap_data view).map (fun row => (row.map cellVal).sum)
      = (datesSorted view).map (date_count view) ∧
    colSums (heatmap_data view) (catsSorted view).length
      = (catsSorted view).map (cat_count view) :=
  ⟨by rw [heatmap_data, List.length_map], heat_dims view, datesSorted_sorted view,
   datesSorted_perm view, catsSorted_sorted view, catsSorted_perm view,
   heat_row_sums view, heat_col_sums view⟩

/-- Claim C7: on a non empty view, line 113 takes element 0 of the pandas mode
series, which lists the most frequent categories in ascending order; the
result is therefore a category of maximal count and, under ties, the
alphabetically least tied category. -/
theorem top_category_most_frequent_min_tie (view : List EOrder) (h : view ≠ []) :
    ∃ c, top_category view = Except.ok c ∧
      (∀ x, count_category view x ≤ count_category view c) ∧
      (∀ x, count_category view x = count_category view c → c ≤ x) := by
  obtain ⟨c0, hc0s, hc0⟩ := max_attained view h
  have hpred : (count_category view c0 == max_category_count view) = true := by
    simp [hc0]
  have hmem : c0 ∈ mode_product_category view :=
    List.mem_filter.mpr ⟨hc0s, hpred⟩
  obtain ⟨m, t, hmt⟩ : ∃ m t, mode_product_category view = m :: t := by
    cases hmode : mode_product_category view with
    | nil =>
      rw [hmode] at hmem
      cases hmem
    | cons m t => exact ⟨m, t, rfl⟩
  have hm_mode : m ∈ mode_product_category view := by
    rw [hmt]
    exact List.mem_cons_self _ _
  have hm_cnt : count_category view m = max_category_count view := by
    have h2 := (List.mem_filter.mp hm_mode).2
    simpa using h2
  refine ⟨m, ?_, ?_, ?_⟩
  · unfold top_category
    rw [hmt]
  · intro x
    rw [hm_cnt]
    exact count_le_max view x
  · intro x hx
    have hxmax : count_category view x = max_category_count view := by
      rw [hx, hm_cnt]
    have hxpos : 0 < count_category view x := by
      rw [hxmax, ← hc0]
      exact count_category_pos.mpr (mem_catsSorted.mp hc0s)
    have hxs : x ∈ catsSorted view := mem_catsSorted.mpr (count_category_pos.mp hxpos)
    have hxmode : x ∈ mode_product_category view :=
      List.mem_filter.mpr ⟨hxs, by simp [hxmax]⟩
    have hsorted : (mode_product_category view).Sorted (· ≤ ·) :=
      List.Pairwise.filter _ (catsSorted_sorted view)
    rw [hmt] at hxmode hsorted
    rcases List.mem_cons.mp hxmode with rfl | hxt
    · exact le_refl x
    · exact List.rel_of_sorted_cons hsorted x hxt

/-- Claim C7 witness: viewTie is non empty, its categories a and b tie with
one row each, and the instantiated theorem applies; the concrete top category
evaluates to a, the alphabetically least tied category. -/
theorem top_category_tie_witness :
    viewTie ≠ [] ∧
    (∃ c, top_category viewTie = Except.ok c ∧
      (∀ x, count_category viewTie x ≤ count_category viewTie c) ∧
      (∀ x, count_category viewTie x = count_category viewTie c → c ≤ x)) ∧
    top_category viewTie = Except.ok "a" :=
  ⟨List.cons_ne_nil _ _,
   top_category_most_frequent_min_tie viewTie (List.cons_ne_nil _ _), rfl⟩

/-- Claim C8: an empty category selection produces an empty orders view for
every orders table and every date range, since isin over the empty category
list holds nowhere. -/
theorem empty_categories_empty_view (df : List EOrder) (d0 d1 : Nat) :
    filtered_df df d0 d1 [] = [] :=
  filtered_df_empty_cats df d0 d1

/-- Claim C9: filtering the already filtered views again with the same
selection returns both views unchanged, because both stages are list
filters, which commute and are idempotent. -/
theorem filter_idempotent_same_selection (df : List EOrder) (customer_df : List Segment)
    (d0 d1 : Nat) (product_category selected_segment : List String) :
    filtered_df (filtered_df df d0 d1 product_category) d0 d1 product_category
      = filtered_df df d0 d1 product_category ∧
    filtered_customer_df (filtered_customer_df customer_df selected_segment)
        selected_segment
      = filtered_customer_df customer_df selected_segment := by
  constructor
  · exact filter_filter_idem _ _ df
  · exact filter_idem _ customer_df

/-- Claim C10: the churn numerator counts order rows while the denominator
counts distinct customers, so one customer with several stale rows pushes the
rate past 100: filtering ordersABC to category x keeps the two rows of the
single customer a, carrying recencies 299 and 298, and the churn rate at
threshold 180 is 200 percent. -/
theorem churn_rate_exceeds_100 :
    ∃ (df : List Order) (d0 d1 churn_threshold : Nat) (cats : List String) (q : ℚ),
      1 ≤ total_customers (filtered_df (load_data df) d0 d1 cats) ∧
      churn_rate (filtered_df (load_data df) d0 d1 cats) churn_threshold = some q ∧
      100 < q := by
  refine ⟨ordersABC, 0, 432000, 180, ["x"], 200, ?_, ?_, by norm_num⟩
  · have h1 : total_customers (filtered_df (load_data ordersABC) 0 432000 ["x"]) = 1 := by
      decide
    omega
  · have h1 : total_customers (filtered_df (load_data ordersABC) 0 432000 ["x"]) = 1 := by
      decide
    have h2 : ((filtered_df (load_data ordersABC) 0 432000 ["x"]).filter
        (fun r => churn_row r 180)).length = 2 := by decide
    unfold churn_rate
    rw [h1, h2, if_neg one_ne_zero]
    norm_num
